import Mathlib

/-!
# Verification of the gpio-cdev core data structures

Shallow embedding of the core pure components of the `gpio-cdev` Rust crate:

* `MaskedBits` (`src/line/values.rs`) — bit-packed partial line values;
* `FixedStr` (`src/fixed_str.rs`) — fixed-capacity NUL-padded strings;
* `LineSet` (`src/line/set.rs`) — bounded sorted duplicate-free offset sets;
* `LineInfo` wire lowering (`src/line/info.rs`, `src/uapi/v2.rs`);
* the capability-tagged option builder (`src/line/option_builder.rs`).

Machine integers (`u64`, `u32`, `u8`) are modelled as `Nat`; the bitwise
operations used by the code (`&`, `|`, `^`) never overflow, and the one
truncating read (the `debounce_period : u32` view of the attribute union)
is modelled with an explicit `% 2^32`.  Fixed-size byte arrays `[u8; N]`
are modelled as `List Nat` of the corresponding length.  Fallible Rust
functions returning `io::Result` are modelled with `Option` (`none` is the
error case).
-/

namespace Gpio

/-- `GPIO_LINES_MAX` from `src/uapi/v2.rs`. -/
def GPIO_LINES_MAX : Nat := 64

/-- `GPIO_MAX_NAME_SIZE` from `src/uapi/v2.rs`. -/
def GPIO_MAX_NAME_SIZE : Nat := 32

/-- `GPIO_LINE_NUM_ATTRS_MAX` from `src/uapi/v2.rs`. -/
def GPIO_LINE_NUM_ATTRS_MAX : Nat := 10

/-! ## MaskedBits (`src/line/values.rs`) -/

/-- The `MaskedBits` struct: a pair of `u64`s, bit `i` of `mask` saying
whether bit `i` of `bits` is meaningful. -/
structure MaskedBits where
  bits : Nat
  mask : Nat
  deriving DecidableEq, Repr

namespace MaskedBits

/-- `MaskedBits::empty`. -/
def empty : MaskedBits := ⟨0, 0⟩

/-- `MaskedBits::try_merge` (`src/line/values.rs:203-218`): XORs the two
mask-qualified projections; any nonzero difference is reported as a
conflict, otherwise the unions of projections and masks are returned. -/
def tryMerge (s o : MaskedBits) : Option MaskedBits :=
  let sBits := s.bits &&& s.mask
  let oBits := o.bits &&& o.mask
  let conflicting := sBits ^^^ oBits
  if conflicting > 0 then
    none
  else
    some ⟨sBits ||| oBits, s.mask ||| o.mask⟩

/-- The derived `PartialEq` on `MaskedBits` (`#[derive(PartialEq)]`,
`src/line/values.rs:82`): field-wise comparison of the raw `bits` and
`mask`. -/
def eqDerived (s o : MaskedBits) : Bool :=
  s.bits == o.bits && s.mask == o.mask

end MaskedBits

/-! ## FixedStr (`src/fixed_str.rs`) -/

namespace FixedStr

/-- `find_nul` (`src/fixed_str.rs:145-153`): index of the first NUL byte,
or the length if there is none. -/
def findNul (s : List Nat) : Nat :=
  (s.takeWhile (fun b => b != 0)).length

/-- Continuation byte test for the UTF-8 validator: `0x80..=0xBF`. -/
def isCont (b : Nat) : Bool :=
  0x80 ≤ b && b ≤ 0xBF

/-- The UTF-8 validity check performed by `core::str::from_utf8`
(RFC 3629 well-formedness, the exact byte-range table used by the Rust
core validator). -/
def utf8Valid : List Nat → Bool
  | [] => true
  | b0 :: rest =>
    if b0 < 0x80 then
      utf8Valid rest
    else if b0 < 0xC2 then
      false
    else if b0 ≤ 0xDF then
      match rest with
      | [] => false
      | b1 :: rest2 => isCont b1 && utf8Valid rest2
    else if b0 ≤ 0xEF then
      match rest with
      | b1 :: b2 :: rest3 =>
        (if b0 = 0xE0 then 0xA0 ≤ b1 && b1 ≤ 0xBF
         else if b0 = 0xED then 0x80 ≤ b1 && b1 ≤ 0x9F
         else isCont b1) && isCont b2 && utf8Valid rest3
      | _ => false
    else if b0 ≤ 0xF4 then
      match rest with
      | b1 :: b2 :: b3 :: rest4 =>
        (if b0 = 0xF0 then 0x90 ≤ b1 && b1 ≤ 0xBF
         else if b0 = 0xF4 then 0x80 ≤ b1 && b1 ≤ 0x8F
         else isCont b1) && isCont b2 && isCont b3 && utf8Valid rest4
      | _ => false
    else
      false

/-- `FixedStr::from_byte_array` (`src/fixed_str.rs:21-29`): find the first
NUL, validate the prefix before it as UTF-8, and zero-fill everything from
the NUL onwards.  The only failure is invalid UTF-8 in the prefix. -/
def fromByteArray (bytes : List Nat) : Option (List Nat) :=
  let nul := findNul bytes
  if utf8Valid (bytes.take nul) then
    some (bytes.take nul ++ List.replicate (bytes.length - nul) 0)
  else
    none

/-- `FixedStr::len` (`src/fixed_str.rs:56-59`): position of the first NUL
byte, or `N` when there is none. -/
def lenImpl (s : List Nat) : Nat :=
  (s.takeWhile (fun b => b != 0)).length

/-- `FixedStr::is_empty` (`src/fixed_str.rs:61-64`): literally
`self.s[0] != 0`. -/
def isEmptyImpl (s : List Nat) : Bool :=
  s.headI != 0

end FixedStr

/-! ## LineSet (`src/line/set.rs`)

A `LineSet` is a `heapless::Vec<u32, 64>` kept sorted and duplicate-free;
it is modelled as the underlying `List Nat` of offsets.  A `push` on the
heapless vector fails exactly when the vector already holds 64 elements.
-/

namespace LineSet

/-- The adjacent-duplicate removal pass `dedup` (`src/line/set.rs:255-384`,
a port of `Vec::dedup` with `same_bucket a b = (a == b)`): keeps the first
element of each run of equal adjacent elements. -/
def dedupAdj : List Nat → List Nat
  | [] => []
  | a :: rest => a :: dedupGo a rest
where
  /-- The compaction loop: `prev` is the last kept element (`write - 1` in
  the source); a current element equal to it is dropped, any other is kept
  and becomes the new `prev`. -/
  dedupGo (prev : Nat) : List Nat → List Nat
    | [] => []
    | x :: xs => if x = prev then dedupGo prev xs else x :: dedupGo x xs

/-- `LineSet::try_from_iter` (`src/line/set.rs:217-232`) at the default
capacity `N = 64`: collect at most 64 items, fail if the iterator yields
more, then sort ascending and remove adjacent duplicates.  Note the
capacity check happens on the raw item count, before deduplication. -/
def tryFromIter (l : List Nat) : Option (List Nat) :=
  let vec := l.take 64
  if 64 < l.length then
    none
  else
    some (dedupAdj (List.insertionSort (· ≤ ·) vec))

/-- The merge loop of `LineSet::join` (`src/line/set.rs:147-200`) at
capacity `N = 64`: `out` is the vector being filled (`self.0` after
`mem::take`), `a` and `b` the remaining elements of the two input
iterators (a pending head is simply the list head).  A `push` fails when
`out` is full; draining a finished side first pushes the head, then
checks that the remainder still fits before the bulk `extend`. -/
def joinGo (out a b : List Nat) : Option (List Nat) :=
  match a, b with
  | [], [] => some out
  | [], n :: brest =>
    if out.length < 64 then
      let out2 := out ++ [n]
      if out2.length + brest.length > 64 then none
      else some (out2 ++ brest)
    else none
  | n :: arest, [] =>
    if out.length < 64 then
      let out2 := out ++ [n]
      if out2.length + arest.length > 64 then none
      else some (out2 ++ arest)
    else none
  | aVal :: arest, bVal :: brest =>
    if aVal = bVal then
      if out.length < 64 then joinGo (out ++ [aVal]) arest brest else none
    else if aVal < bVal then
      if out.length < 64 then joinGo (out ++ [aVal]) arest (bVal :: brest) else none
    else
      if out.length < 64 then joinGo (out ++ [bVal]) (aVal :: arest) brest else none
termination_by a.length + b.length

/-- `LineSet::join` (`src/line/set.rs:133-215`): run the merge loop on an
emptied receiver; on success the receiver holds the merged output, on
failure the receiver is restored to its original contents (`self.0 = old`)
and an error is returned.  The `Bool` is `true` on `Ok(())`. -/
def join (s o : List Nat) : Bool × List Nat :=
  match joinGo [] s o with
  | some out => (true, out)
  | none => (false, s)

/-- The plain sorted-union merge of two sorted duplicate-free lists; the
capacity-free mathematical skeleton of `joinGo`, used to state what the
merge loop computes. -/
def mergeUnion : List Nat → List Nat → List Nat
  | [], b => b
  | a, [] => a
  | aVal :: arest, bVal :: brest =>
    if aVal = bVal then aVal :: mergeUnion arest brest
    else if aVal < bVal then aVal :: mergeUnion arest (bVal :: brest)
    else bVal :: mergeUnion (aVal :: arest) brest
termination_by a b => a.length + b.length

end LineSet

/-- `impl AsLineSet for u32` (`src/line/set.rs:9-13`): the body is
literally `LineSet::try_from_iter([1])` — the received offset is ignored
and the constant iterable `[1]` is used. -/
def asLineSetU32 (_offset : Nat) : Option (List Nat) :=
  LineSet.tryFromIter [1]

/-! ## Line flags (`src/uapi/v2.rs:18-40`) and the option builder
(`src/line/option_builder.rs`) -/

namespace LineFlags

def USED : Nat := 1 <<< 0
def ACTIVE_LOW : Nat := 1 <<< 1
def INPUT : Nat := 1 <<< 2
def OUTPUT : Nat := 1 <<< 3
def EDGE_RISING : Nat := 1 <<< 4
def EDGE_FALLING : Nat := 1 <<< 5
def OPEN_DRAIN : Nat := 1 <<< 6
def OPEN_SOURCE : Nat := 1 <<< 7
def BIAS_PULL_UP : Nat := 1 <<< 8
def BIAS_PULL_DOWN : Nat := 1 <<< 9
def BIAS_DISABLED : Nat := 1 <<< 10
def EVENT_CLOCK_REALTIME : Nat := 1 <<< 11
def EVENT_CLOCK_HTE : Nat := 1 <<< 12

end LineFlags

/-- `Active` (`src/line/options.rs:106-111`). -/
inductive Active | High | Low
  deriving DecidableEq, Repr, Fintype

/-- `EdgeDetect` (`src/line/options.rs:113-119`). -/
inductive EdgeDetect | Rising | Falling | Both
  deriving DecidableEq, Repr, Fintype

/-- `Drive` (`src/line/options.rs:121-125`). -/
inductive Drive | OpenDrain | OpenSource
  deriving DecidableEq, Repr, Fintype

/-- `Bias` (`src/line/options.rs:127-133`). -/
inductive Bias | Disabled | PullUp | PullDown
  deriving DecidableEq, Repr

/-- `EventClock` (`src/line/options.rs:173-180`). -/
inductive EventClock | Default | HardwareTimestampEngine | RealTime
  deriving DecidableEq, Repr, Fintype

/-- The field record of `LineOptionBuilder<Dir>`
(`src/line/option_builder.rs:14-21`); the direction tag `Dir` is a
phantom type, so the three `build_v2` methods below are separate
functions over the same record. -/
structure LineOptionBuilder where
  active : Option Active
  edge : Option EdgeDetect
  bias : Option Bias
  drive : Option Drive
  clock : Option EventClock
  deriving DecidableEq, Repr

namespace LineOptionBuilder

open LineFlags

/-- `LineOptionBuilder::<HasInput>::build_v2`
(`src/line/option_builder.rs:94-130`). -/
def buildV2Input (b : LineOptionBuilder) : Nat :=
  let flags := INPUT
  let flags := match b.active with
    | some Active.Low => flags ||| ACTIVE_LOW
    | some Active.High | none => flags
  let flags := match b.bias with
    | some Bias.PullDown => flags ||| BIAS_PULL_DOWN
    | some Bias.PullUp => flags ||| BIAS_PULL_UP
    | some Bias.Disabled | none => flags ||| BIAS_DISABLED
  let flags := match b.edge with
    | some EdgeDetect.Both => flags ||| EDGE_RISING ||| EDGE_FALLING
    | some EdgeDetect.Rising => flags ||| EDGE_RISING
    | some EdgeDetect.Falling => flags ||| EDGE_FALLING
    | none => flags
  if b.edge.isSome then
    match b.clock with
    | some EventClock.HardwareTimestampEngine => flags ||| EVENT_CLOCK_HTE
    | some EventClock.RealTime => flags ||| EVENT_CLOCK_REALTIME
    | some EventClock.Default | none => flags
  else
    flags

/-- `LineOptionBuilder::<HasOpenOutput>::build_v2`
(`src/line/option_builder.rs:172-214`). -/
def buildV2OpenOutput (b : LineOptionBuilder) : Nat :=
  let flags := OUTPUT
  let flags := match b.active with
    | some Active.Low => flags ||| ACTIVE_LOW
    | some Active.High | none => flags
  let flags := match b.bias with
    | some Bias.PullDown => flags ||| BIAS_PULL_DOWN
    | some Bias.PullUp => flags ||| BIAS_PULL_UP
    | some Bias.Disabled | none => flags ||| BIAS_DISABLED
  let flags := match b.edge with
    | some EdgeDetect.Both => flags ||| EDGE_RISING ||| EDGE_FALLING
    | some EdgeDetect.Rising => flags ||| EDGE_RISING
    | some EdgeDetect.Falling => flags ||| EDGE_FALLING
    | none => flags
  let flags := match b.drive with
    | some Drive.OpenDrain => flags ||| OPEN_DRAIN
    | some Drive.OpenSource => flags ||| OPEN_SOURCE
    | none => flags
  if b.edge.isSome then
    match b.clock with
    | some EventClock.HardwareTimestampEngine => flags ||| EVENT_CLOCK_HTE
    | some EventClock.RealTime => flags ||| EVENT_CLOCK_REALTIME
    | some EventClock.Default | none => flags
  else
    flags

/-- `LineOptionBuilder::<HasDrivenOutput>::build_v2`
(`src/line/option_builder.rs:233-242`). -/
def buildV2DrivenOutput (b : LineOptionBuilder) : Nat :=
  let flags := OUTPUT
  match b.active with
  | some Active.Low => flags ||| ACTIVE_LOW
  | some Active.High | none => flags

end LineOptionBuilder

/-! ## Line info wire structures and decode/encode
(`src/uapi/v2.rs`, `src/line/info.rs`) -/

/-- `gpio_line_attribute` (`src/uapi/v2.rs:66-73`): an id plus an 8-byte
union payload, modelled as a raw `Nat`.  The `debounce_period : u32` view
of the payload reads its low 32 bits. -/
structure GpioLineAttr where
  id : Nat
  payload : Nat
  deriving DecidableEq, Repr

/-- The in-memory `LineAttribute` (`src/line/info.rs:189-195`). -/
inductive LineAttribute
  | Flags (f : Nat)
  | Values (v : MaskedBits)
  | Debounce (d : Nat)
  deriving DecidableEq, Repr

namespace LineAttribute

/-- `LineAttribute::new_v2` (`src/line/info.rs:198-218`): decode one wire
attribute; `FLAGS = 1`, `OUTPUT_VALUES = 2` (mask forced to all-ones),
`DEBOUNCE = 3` (u32 read of the payload); other ids are unsupported. -/
def newV2 (a : GpioLineAttr) : Option LineAttribute :=
  if a.id = 1 then some (Flags a.payload)
  else if a.id = 2 then some (Values ⟨a.payload, 2 ^ 64 - 1⟩)
  else if a.id = 3 then some (Debounce (a.payload % 2 ^ 32))
  else none

/-- `LineAttribute::into_v2` (`src/line/info.rs:220-243`). -/
def intoV2 : LineAttribute → GpioLineAttr
  | Flags f => ⟨1, f⟩
  | Values v => ⟨2, v.bits⟩
  | Debounce d => ⟨3, d⟩

end LineAttribute

/-- The folded attribute record `LineAttributes` (`src/line/info.rs:152-157`). -/
structure LineAttributes where
  flags : Option Nat
  values : Option MaskedBits
  debounce : Option Nat
  deriving DecidableEq, Repr

namespace LineAttributes

/-- `LineAttributes::from_attr_list` (`src/line/info.rs:159-187`): decode
the first `n` wire attributes and fold them left-to-right — repeated
`Flags` are unioned, a later `Values` or `Debounce` overwrites an earlier
one. -/
def fromAttrList (n : Nat) (attrs : List GpioLineAttr) : Option LineAttributes :=
  (attrs.take n).foldlM
    (fun acc a => do
      match ← LineAttribute.newV2 a with
      | LineAttribute.Flags f =>
        pure { acc with
               flags := some (match acc.flags with
                              | some g => g ||| f
                              | none => f) }
      | LineAttribute.Values v => pure { acc with values := some v }
      | LineAttribute.Debounce d => pure { acc with debounce := some d })
    ⟨none, none, none⟩

end LineAttributes

/-- `gpio_line_info` (`src/uapi/v2.rs:163-171`): 32-byte `name` and
`consumer` arrays, the line offset, the attribute count, the base flag
bitfield and the 10-slot attribute array. -/
structure GpioLineInfo where
  name : List Nat
  consumer : List Nat
  offset : Nat
  numAttrs : Nat
  flags : Nat
  attrs : List GpioLineAttr
  deriving DecidableEq, Repr

/-- The decoded `LineInfo` record (`src/line/info.rs:7-14`); the two
fixed-capacity strings are represented by their 32-byte backing arrays. -/
structure LineInfo where
  name : List Nat
  consumer : List Nat
  offset : Nat
  flags : Nat
  attrs : LineAttributes
  deriving DecidableEq, Repr

namespace LineInfo

/-- `LineInfo::from_v2` (`src/line/info.rs:38-51`).  Note that the
`consumer` field is decoded from `info.name`, exactly as in the source
(`let consumer = FixedStr::from_byte_array(info.name)?;`). -/
def fromV2 (info : GpioLineInfo) : Option LineInfo := do
  let name ← FixedStr.fromByteArray info.name
  let consumer ← FixedStr.fromByteArray info.name
  let attrs ← LineAttributes.fromAttrList info.numAttrs info.attrs
  pure ⟨name, consumer, info.offset, info.flags, attrs⟩

/-- `LineInfo::into_v2` (`src/line/info.rs:53-78`): encode the debounce
and values attributes (in that order) into the zero-initialised 10-slot
array, and fold an attribute-flags override into the base flags. -/
def intoV2 (li : LineInfo) : GpioLineInfo :=
  let a : List LineAttribute :=
    List.filterMap id
      [li.attrs.debounce.map LineAttribute.Debounce,
       li.attrs.values.map LineAttribute.Values]
  let numAttrs := a.length
  let encoded := a.map LineAttribute.intoV2
  let flags := li.attrs.flags.getD li.flags
  ⟨li.name, li.consumer, li.offset, numAttrs, flags,
   encoded ++ List.replicate (GPIO_LINE_NUM_ATTRS_MAX - numAttrs) ⟨0, 0⟩⟩

/-- `LineInfo::name` (`src/line/info.rs:80-86`): `None` when
`self.name.is_empty()`, otherwise the name string. -/
def nameOpt (li : LineInfo) : Option (List Nat) :=
  if FixedStr.isEmptyImpl li.name then none else some li.name

end LineInfo

/-! ## Theorems -/

/-! ### Helper lemmas about the sorted-union merge and deduplication -/

theorem mem_mergeUnion (a b : List Nat) (x : Nat) :
    x ∈ LineSet.mergeUnion a b ↔ x ∈ a ∨ x ∈ b := by
  induction a, b using LineSet.mergeUnion.induct with
  | case1 b => simp [LineSet.mergeUnion]
  | case2 a ha =>
    rcases a with _ | ⟨y, ys⟩
    · exact absurd rfl ha
    · simp [LineSet.mergeUnion]
  | case3 arest bVal brest ih =>
    rw [show LineSet.mergeUnion (bVal :: arest) (bVal :: brest)
          = bVal :: LineSet.mergeUnion arest brest by
        simp [LineSet.mergeUnion]]
    simp only [List.mem_cons, ih]
    tauto
  | case4 aVal arest bVal brest hne hlt ih =>
    rw [show LineSet.mergeUnion (aVal :: arest) (bVal :: brest)
          = aVal :: LineSet.mergeUnion arest (bVal :: brest) by
        simp [LineSet.mergeUnion, hne, hlt]]
    simp only [List.mem_cons, ih]
    tauto
  | case5 aVal arest bVal brest hne hnlt ih =>
    rw [show LineSet.mergeUnion (aVal :: arest) (bVal :: brest)
          = bVal :: LineSet.mergeUnion (aVal :: arest) brest by
        simp [LineSet.mergeUnion, hne, hnlt]]
    simp only [List.mem_cons, ih]
    tauto

theorem sorted_mergeUnion : ∀ (a b : List Nat),
    List.Sorted (· < ·) a → List.Sorted (· < ·) b →
    List.Sorted (· < ·) (LineSet.mergeUnion a b) := by
  intro a b
  induction a, b using LineSet.mergeUnion.induct with
  | case1 b =>
    intro _ hb
    simpa [LineSet.mergeUnion] using hb
  | case2 a ha =>
    intro haS _
    rcases a with _ | ⟨y, ys⟩
    · exact absurd rfl ha
    · simpa [LineSet.mergeUnion] using haS
  | case3 arest bVal brest ih =>
    intro haS hbS
    rw [show LineSet.mergeUnion (bVal :: arest) (bVal :: brest)
          = bVal :: LineSet.mergeUnion arest brest by
        simp [LineSet.mergeUnion]]
    rw [List.sorted_cons]
    refine ⟨?_, ih haS.of_cons hbS.of_cons⟩
    intro y hy
    rcases (mem_mergeUnion arest brest y).mp hy with h | h
    · exact List.rel_of_sorted_cons haS y h
    · exact List.rel_of_sorted_cons hbS y h
  | case4 aVal arest bVal brest hne hlt ih =>
    intro haS hbS
    rw [show LineSet.mergeUnion (aVal :: arest) (bVal :: brest)
          = aVal :: LineSet.mergeUnion arest (bVal :: brest) by
        simp [LineSet.mergeUnion, hne, hlt]]
    rw [List.sorted_cons]
    refine ⟨?_, ih haS.of_cons hbS⟩
    intro y hy
    rcases (mem_mergeUnion arest (bVal :: brest) y).mp hy with h | h
    · exact List.rel_of_sorted_cons haS y h
    · rcases List.mem_cons.mp h with rfl | h
      · exact hlt
      · exact lt_trans hlt (List.rel_of_sorted_cons hbS y h)
  | case5 aVal arest bVal brest hne hnlt ih =>
    intro haS hbS
    have hgt : bVal < aVal :=
      Nat.lt_of_le_of_ne (Nat.le_of_not_lt hnlt) (fun h => hne h.symm)
    rw [show LineSet.mergeUnion (aVal :: arest) (bVal :: brest)
          = bVal :: LineSet.mergeUnion (aVal :: arest) brest by
        simp [LineSet.mergeUnion, hne, hnlt]]
    rw [List.sorted_cons]
    refine ⟨?_, ih haS hbS.of_cons⟩
    intro y hy
    rcases (mem_mergeUnion (aVal :: arest) brest y).mp hy with h | h
    · rcases List.mem_cons.mp h with rfl | h
      · exact hgt
      · exact lt_trans hgt (List.rel_of_sorted_cons haS y h)
    · exact List.rel_of_sorted_cons hbS y h

/-- What the capacity-checked merge loop computes: run on a prefix `out`
shorter than the capacity, it produces `out ++ mergeUnion a b` when that
fits in 64 slots and fails otherwise. -/
theorem joinGo_eq (out a b : List Nat) : out.length ≤ 64 →
    LineSet.joinGo out a b
      = if out.length + (LineSet.mergeUnion a b).length ≤ 64
        then some (out ++ LineSet.mergeUnion a b)
        else none := by
  induction out, a, b using LineSet.joinGo.induct with
  | case1 out =>
    intro hout
    simp only [LineSet.joinGo, LineSet.mergeUnion, List.length_nil, List.append_nil,
      Nat.add_zero]
    rw [if_pos hout]
  | case2 out n brest h1 out2 h2 =>
    intro hout
    have h2' : 64 < out.length + 1 + brest.length := by
      simpa using (show 64 < (out ++ [n]).length + brest.length from h2)
    simp only [LineSet.joinGo, LineSet.mergeUnion, List.length_append,
      List.length_singleton, List.length_cons, List.length_nil, List.nil_append,
      List.append_nil, List.append_assoc, List.singleton_append]
    split_ifs <;> first | rfl | (exfalso; omega)
  | case3 out n brest h1 out2 h2 =>
    intro hout
    have h2' : ¬ 64 < out.length + 1 + brest.length := by
      simpa using (show ¬ 64 < (out ++ [n]).length + brest.length from h2)
    simp only [LineSet.joinGo, LineSet.mergeUnion, List.length_append,
      List.length_singleton, List.length_cons, List.length_nil, List.nil_append,
      List.append_nil, List.append_assoc, List.singleton_append]
    split_ifs <;> first | rfl | (exfalso; omega)
  | case4 out n brest h1 =>
    intro hout
    simp only [LineSet.joinGo, LineSet.mergeUnion, List.length_append,
      List.length_singleton, List.length_cons, List.length_nil, List.nil_append,
      List.append_nil, List.append_assoc, List.singleton_append]
    split_ifs <;> first | rfl | (exfalso; omega)
  | case5 out n arest h1 out2 h2 =>
    intro hout
    have h2' : 64 < out.length + 1 + arest.length := by
      simpa using (show 64 < (out ++ [n]).length + arest.length from h2)
    simp only [LineSet.joinGo, LineSet.mergeUnion, List.length_append,
      List.length_singleton, List.length_cons, List.length_nil, List.nil_append,
      List.append_nil, List.append_assoc, List.singleton_append]
    split_ifs <;> first | rfl | (exfalso; omega)
  | case6 out n arest h1 out2 h2 =>
    intro hout
    have h2' : ¬ 64 < out.length + 1 + arest.length := by
      simpa using (show ¬ 64 < (out ++ [n]).length + arest.length from h2)
    simp only [LineSet.joinGo, LineSet.mergeUnion, List.length_append,
      List.length_singleton, List.length_cons, List.length_nil, List.nil_append,
      List.append_nil, List.append_assoc, List.singleton_append]
    split_ifs <;> first | rfl | (exfalso; omega)
  | case7 out n arest h1 =>
    intro hout
    simp only [LineSet.joinGo, LineSet.mergeUnion, List.length_append,
      List.length_singleton, List.length_cons, List.length_nil, List.nil_append,
      List.append_nil, List.append_assoc, List.singleton_append]
    split_ifs <;> first | rfl | (exfalso; omega)
  | case8 out arest bVal brest h1 ih =>
    intro hout
    have hlen : (out ++ [bVal]).length = out.length + 1 := by simp
    have hrec := ih (by rw [hlen]; omega)
    have hstep : LineSet.joinGo out (bVal :: arest) (bVal :: brest)
        = LineSet.joinGo (out ++ [bVal]) arest brest := by
      simp [LineSet.joinGo, h1]
    have hmu : LineSet.mergeUnion (bVal :: arest) (bVal :: brest)
        = bVal :: LineSet.mergeUnion arest brest := by
      simp [LineSet.mergeUnion]
    rw [hstep, hrec, hmu, hlen]
    simp only [List.length_cons, List.append_assoc, List.singleton_append]
    by_cases hc : out.length + ((LineSet.mergeUnion arest brest).length + 1) ≤ 64
    · rw [if_pos (by omega), if_pos (by omega)]
    · rw [if_neg (by omega), if_neg (by omega)]
  | case9 out arest bVal brest h1 =>
    intro hout
    have hstep : LineSet.joinGo out (bVal :: arest) (bVal :: brest) = none := by
      simp [LineSet.joinGo, h1]
    have hmu : LineSet.mergeUnion (bVal :: arest) (bVal :: brest)
        = bVal :: LineSet.mergeUnion arest brest := by
      simp [LineSet.mergeUnion]
    rw [hstep, hmu]
    rw [if_neg (by simp only [List.length_cons]; omega)]
  | case10 out aVal arest bVal brest hne hlt h1 ih =>
    intro hout
    have hlen : (out ++ [aVal]).length = out.length + 1 := by simp
    have hrec := ih (by rw [hlen]; omega)
    have hstep : LineSet.joinGo out (aVal :: arest) (bVal :: brest)
        = LineSet.joinGo (out ++ [aVal]) arest (bVal :: brest) := by
      simp [LineSet.joinGo, hne, hlt, h1]
    have hmu : LineSet.mergeUnion (aVal :: arest) (bVal :: brest)
        = aVal :: LineSet.mergeUnion arest (bVal :: brest) := by
      simp [LineSet.mergeUnion, hne, hlt]
    rw [hstep, hrec, hmu, hlen]
    simp only [List.length_cons, List.append_assoc, List.singleton_append]
    by_cases hc :
        out.length + ((LineSet.mergeUnion arest (bVal :: brest)).length + 1) ≤ 64
    · rw [if_pos (by omega), if_pos (by omega)]
    · rw [if_neg (by omega), if_neg (by omega)]
  | case11 out aVal arest bVal brest hne hlt h1 =>
    intro hout
    have hstep : LineSet.joinGo out (aVal :: arest) (bVal :: brest) = none := by
      simp [LineSet.joinGo, hne, hlt, h1]
    have hmu : LineSet.mergeUnion (aVal :: arest) (bVal :: brest)
        = aVal :: LineSet.mergeUnion arest (bVal :: brest) := by
      simp [LineSet.mergeUnion, hne, hlt]
    rw [hstep, hmu]
    rw [if_neg (by simp only [List.length_cons]; omega)]
  | case12 out aVal arest bVal brest hne hnlt h1 ih =>
    intro hout
    have hlen : (out ++ [bVal]).length = out.length + 1 := by simp
    have hrec := ih (by rw [hlen]; omega)
    have hstep : LineSet.joinGo out (aVal :: arest) (bVal :: brest)
        = LineSet.joinGo (out ++ [bVal]) (aVal :: arest) brest := by
      simp [LineSet.joinGo, hne, hnlt, h1]
    have hmu : LineSet.mergeUnion (aVal :: arest) (bVal :: brest)
        = bVal :: LineSet.mergeUnion (aVal :: arest) brest := by
      simp [LineSet.mergeUnion, hne, hnlt]
    rw [hstep, hrec, hmu, hlen]
    simp only [List.length_cons, List.append_assoc, List.singleton_append]
    by_cases hc :
        out.length + ((LineSet.mergeUnion (aVal :: arest) brest).length + 1) ≤ 64
    · rw [if_pos (by omega), if_pos (by omega)]
    · rw [if_neg (by omega), if_neg (by omega)]
  | case13 out aVal arest bVal brest hne hnlt h1 =>
    intro hout
    have hstep : LineSet.joinGo out (aVal :: arest) (bVal :: brest) = none := by
      simp [LineSet.joinGo, hne, hnlt, h1]
    have hmu : LineSet.mergeUnion (aVal :: arest) (bVal :: brest)
        = bVal :: LineSet.mergeUnion (aVal :: arest) brest := by
      simp [LineSet.mergeUnion, hne, hnlt]
    rw [hstep, hmu]
    rw [if_neg (by simp only [List.length_cons]; omega)]

theorem dedupGo_eq_self (prev : Nat) (l : List Nat)
    (hnd : l.Nodup) (hp : prev ∉ l) :
    LineSet.dedupAdj.dedupGo prev l = l := by
  induction l generalizing prev with
  | nil => rfl
  | cons x xs ih =>
    rw [LineSet.dedupAdj.dedupGo]
    rw [if_neg (by rintro rfl; exact hp (List.mem_cons_self x xs))]
    rw [ih x (List.Nodup.of_cons hnd) (List.nodup_cons.mp hnd).1]

theorem dedupAdj_eq_self (l : List Nat) (h : l.Nodup) :
    LineSet.dedupAdj l = l := by
  cases l with
  | nil => rfl
  | cons a rest =>
    rw [LineSet.dedupAdj]
    rw [dedupGo_eq_self a rest (List.Nodup.of_cons h) (List.nodup_cons.mp h).1]

/-- C1: for sorted duplicate-free line sets `s` and `o`, `join` succeeds
exactly when the deduplicated union of the two sets has at most 64
elements; on success the receiver holds the sorted duplicate-free union,
and on failure the receiver is unchanged. -/
theorem join_spec (s o : List Nat)
    (hs : List.Sorted (· < ·) s) (ho : List.Sorted (· < ·) o) :
    ((LineSet.join s o).1 = true ↔ (s.toFinset ∪ o.toFinset).card ≤ 64)
    ∧ ((LineSet.join s o).1 = true →
        List.Sorted (· < ·) (LineSet.join s o).2
        ∧ (LineSet.join s o).2.Nodup
        ∧ ∀ x, x ∈ (LineSet.join s o).2 ↔ x ∈ s ∨ x ∈ o)
    ∧ ((LineSet.join s o).1 = false → (LineSet.join s o).2 = s) := by
  have hkey := joinGo_eq [] s o (by simp)
  simp only [List.length_nil, List.nil_append, Nat.zero_add] at hkey
  have hsort := sorted_mergeUnion s o hs ho
  have hnd : (LineSet.mergeUnion s o).Nodup := hsort.nodup
  have hToF : (LineSet.mergeUnion s o).toFinset = s.toFinset ∪ o.toFinset := by
    ext x
    simp [mem_mergeUnion]
  have hcard : (s.toFinset ∪ o.toFinset).card = (LineSet.mergeUnion s o).length := by
    rw [← hToF, List.toFinset_card_of_nodup hnd]
  by_cases hc : (LineSet.mergeUnion s o).length ≤ 64
  · have hjoin : LineSet.join s o = (true, LineSet.mergeUnion s o) := by
      simp [LineSet.join, hkey, hc]
    rw [hjoin]
    refine ⟨by simp [hcard, hc], ?_, by simp⟩
    intro _
    exact ⟨hsort, hnd, fun x => mem_mergeUnion s o x⟩
  · have hjoin : LineSet.join s o = (false, s) := by
      simp [LineSet.join, hkey, hc]
    rw [hjoin]
    exact ⟨by simp [hcard, hc], by simp, by simp⟩

/-- Witness for `join_spec` at the spec's own example `{1,2,3}.join {3,4}`. -/
theorem join_spec_witness :
    List.Sorted (· < ·) [1, 2, 3] ∧ List.Sorted (· < ·) [3, 4]
    ∧ (((LineSet.join [1, 2, 3] [3, 4]).1 = true
          ↔ (([1, 2, 3] : List Nat).toFinset ∪ ([3, 4] : List Nat).toFinset).card ≤ 64)
       ∧ ((LineSet.join [1, 2, 3] [3, 4]).1 = true →
            List.Sorted (· < ·) (LineSet.join [1, 2, 3] [3, 4]).2
            ∧ (LineSet.join [1, 2, 3] [3, 4]).2.Nodup
            ∧ ∀ x, x ∈ (LineSet.join [1, 2, 3] [3, 4]).2
                ↔ x ∈ [1, 2, 3] ∨ x ∈ [3, 4])
       ∧ ((LineSet.join [1, 2, 3] [3, 4]).1 = false
            → (LineSet.join [1, 2, 3] [3, 4]).2 = [1, 2, 3])) :=
  ⟨by decide, by decide, join_spec [1, 2, 3] [3, 4] (by decide) (by decide)⟩

/-- C5: constructing a line set from an iterable of at most 64 distinct
offsets succeeds, and the result holds exactly the same elements, in
strictly ascending order, without duplicates. -/
theorem tryFromIter_unique (l : List Nat) (h1 : l.Nodup) (h2 : l.length ≤ 64) :
    ∃ out, LineSet.tryFromIter l = some out
      ∧ List.Sorted (· < ·) out ∧ out.Nodup ∧ out.Perm l := by
  have htake : l.take 64 = l := List.take_of_length_le h2
  have hnotlt : ¬ 64 < l.length := Nat.not_lt.mpr h2
  have hperm : (List.insertionSort (· ≤ ·) l).Perm l := List.perm_insertionSort _ l
  have hsorted : List.Sorted (· ≤ ·) (List.insertionSort (· ≤ ·) l) :=
    List.sorted_insertionSort _ l
  have hnodup : (List.insertionSort (· ≤ ·) l).Nodup := hperm.nodup_iff.mpr h1
  have hlt : List.Sorted (· < ·) (List.insertionSort (· ≤ ·) l) :=
    hsorted.lt_of_le hnodup
  refine ⟨List.insertionSort (· ≤ ·) l, ?_, hlt, hnodup, hperm⟩
  simp [LineSet.tryFromIter, htake, hnotlt, dedupAdj_eq_self _ hnodup]

/-- Witness for `tryFromIter_unique` at the concrete input `[3, 1, 2]`. -/
theorem tryFromIter_unique_witness :
    ([3, 1, 2] : List Nat).Nodup ∧ ([3, 1, 2] : List Nat).length ≤ 64
    ∧ ∃ out, LineSet.tryFromIter [3, 1, 2] = some out
        ∧ List.Sorted (· < ·) out ∧ out.Nodup ∧ out.Perm [3, 1, 2] :=
  ⟨by decide, by decide, tryFromIter_unique [3, 1, 2] (by decide) (by decide)⟩

/-- C2 (code evaluated at the failing input): merging the masked value
`{bits: 1, mask: 1}` with the empty masked value `{bits: 0, mask: 0}`
fails, although the two masks have no bit position in common — there is no
commonly-masked disagreement, so the claim (and the spec's stated purpose
of `merge`) requires success with `{bits: 1, mask: 1}`. -/
theorem tryMerge_fails_without_common_mask_bit :
    ((MaskedBits.mk 1 1).bits ^^^ (MaskedBits.mk 0 0).bits)
        &&& ((MaskedBits.mk 1 1).mask &&& (MaskedBits.mk 0 0).mask) = 0
    ∧ MaskedBits.tryMerge ⟨1, 1⟩ ⟨0, 0⟩ = none := by
  decide

/-- C3 (counterexample): the 32-byte name array `"A\0B\0…\0"` contains a
NUL followed by the non-zero byte `B = 0x42`, yet decoding succeeds (the
trailing bytes are zero-filled) instead of failing with Malformed. -/
theorem fromByteArray_accepts_nonzero_after_nul :
    FixedStr.fromByteArray ([65, 0, 66] ++ List.replicate 29 0)
      = some (65 :: List.replicate 31 0) := by
  decide

/-- C3 (amended): decoding a fixed-size byte array fails exactly when the
bytes before the first NUL are not valid UTF-8; bytes from the first NUL
onwards never cause a failure — on success they are replaced by zeros. -/
theorem fromByteArray_spec (bytes : List Nat) :
    (FixedStr.fromByteArray bytes = none
      ↔ FixedStr.utf8Valid (bytes.take (FixedStr.findNul bytes)) = false)
    ∧ ∀ out, FixedStr.fromByteArray bytes = some out →
        out = bytes.take (FixedStr.findNul bytes)
          ++ List.replicate (bytes.length - FixedStr.findNul bytes) 0 := by
  constructor
  · simp only [FixedStr.fromByteArray]
    split <;> simp_all
  · intro out h
    simp only [FixedStr.fromByteArray] at h
    split at h <;> simp_all

/-- Witness for `fromByteArray_spec` at the concrete array
`[72, 105, 0, 33]` (`"Hi\0!"`). -/
theorem fromByteArray_spec_witness :
    FixedStr.fromByteArray [72, 105, 0, 33] = some [72, 105, 0, 0]
    ∧ [72, 105, 0, 0]
        = [72, 105, 0, 33].take (FixedStr.findNul [72, 105, 0, 33])
          ++ List.replicate
              (([72, 105, 0, 33] : List Nat).length - FixedStr.findNul [72, 105, 0, 33]) 0 :=
  ⟨by decide, (fromByteArray_spec [72, 105, 0, 33]).2 [72, 105, 0, 0] (by decide)⟩

/-- C6 (counterexample): an iterable of 65 items with a single distinct
value is rejected with a capacity error, although its deduplicated size
is 1 ≤ 64 — dedup does not happen before the capacity check. -/
theorem tryFromIter_rejects_65_duplicates :
    LineSet.tryFromIter (List.replicate 65 0) = none
    ∧ (List.replicate 65 0).toFinset.card ≤ 64 := by
  decide

/-- C6 (amended): construction from an iterable fails with a capacity
error exactly when the raw iterable yields more than 64 items — the
capacity check is performed on the raw item count, before
deduplication. -/
theorem tryFromIter_none_iff_length_gt (l : List Nat) :
    LineSet.tryFromIter l = none ↔ 64 < l.length := by
  unfold LineSet.tryFromIter
  split <;> simp_all

/-- C7 (counterexample): `{bits: 1, mask: 1}` and `{bits: 3, mask: 1}`
have equal masks and equal mask-qualified projections (both `1`), yet the
derived equality reports them different, because it compares the raw
bits. -/
theorem eqDerived_distinguishes_masked_out_bits :
    (MaskedBits.mk 1 1).mask = (MaskedBits.mk 3 1).mask
    ∧ (MaskedBits.mk 1 1).bits &&& (MaskedBits.mk 1 1).mask
        = (MaskedBits.mk 3 1).bits &&& (MaskedBits.mk 3 1).mask
    ∧ MaskedBits.eqDerived ⟨1, 1⟩ ⟨3, 1⟩ = false := by
  decide

/-- C7 (amended): the derived equality of two Masked Values is raw
structural equality — it holds exactly when the raw `bits` and the masks
are equal, so bits at masked-out positions are *not* ignored. -/
theorem eqDerived_iff_raw_fields (s o : MaskedBits) :
    MaskedBits.eqDerived s o = true ↔ s.bits = o.bits ∧ s.mask = o.mask := by
  simp [MaskedBits.eqDerived]

/-- C8: in the input-tagged and open-output-tagged builder states, when
edge detection is unset the lowered flag bitfield contains neither
`EVENT_CLOCK_REALTIME` nor `EVENT_CLOCK_HTE`, whatever clock source was
requested. -/
theorem buildV2_no_clock_bits_without_edge (b : LineOptionBuilder)
    (h : b.edge = none) :
    LineOptionBuilder.buildV2Input b
        &&& (LineFlags.EVENT_CLOCK_REALTIME ||| LineFlags.EVENT_CLOCK_HTE) = 0
    ∧ LineOptionBuilder.buildV2OpenOutput b
        &&& (LineFlags.EVENT_CLOCK_REALTIME ||| LineFlags.EVENT_CLOCK_HTE) = 0 := by
  obtain ⟨active, edge, bias, drive, clock⟩ := b
  simp only at h
  subst h
  rcases active with _ | (_ | _) <;>
    rcases bias with _ | (_ | _ | _) <;>
      rcases drive with _ | (_ | _) <;>
        rcases clock with _ | (_ | _ | _) <;>
          decide

/-- Witness for `buildV2_no_clock_bits_without_edge`: a builder with a
non-default clock source (`RealTime`) explicitly requested but no edge
detection. -/
theorem buildV2_no_clock_bits_witness :
    (LineOptionBuilder.mk (some Active.Low) none (some Bias.PullUp)
        (some Drive.OpenDrain) (some EventClock.RealTime)).edge = none
    ∧ (LineOptionBuilder.buildV2Input
          ⟨some Active.Low, none, some Bias.PullUp, some Drive.OpenDrain,
           some EventClock.RealTime⟩
          &&& (LineFlags.EVENT_CLOCK_REALTIME ||| LineFlags.EVENT_CLOCK_HTE) = 0
       ∧ LineOptionBuilder.buildV2OpenOutput
          ⟨some Active.Low, none, some Bias.PullUp, some Drive.OpenDrain,
           some EventClock.RealTime⟩
          &&& (LineFlags.EVENT_CLOCK_REALTIME ||| LineFlags.EVENT_CLOCK_HTE) = 0) :=
  ⟨rfl, buildV2_no_clock_bits_without_edge _ rfl⟩

/-- C9 (code evaluated at the failing input): converting the offset `5`
via the `AsLineSet` impl for `u32` yields the singleton `{1}`, not `{5}` —
the impl ignores the receiver and builds its set from the constant `[1]`. -/
theorem asLineSetU32_ignores_offset :
    asLineSetU32 5 = some [1] ∧ some [1] ≠ some [(5 : Nat)] := by
  decide

/-- C10 (code evaluated at the failing inputs): on the all-zero (empty)
32-byte array, `is_empty` returns `false` although the stored string has
length 0; on the array holding `"A"` it returns `true` although the
string has length 1; consequently `LineInfo::name` returns `None` for a
line whose decoded name is the non-empty `"A"`. -/
theorem isEmptyImpl_inverted :
    FixedStr.isEmptyImpl (List.replicate 32 0) = false
    ∧ FixedStr.lenImpl (List.replicate 32 0) = 0
    ∧ FixedStr.isEmptyImpl (65 :: List.replicate 31 0) = true
    ∧ FixedStr.lenImpl (65 :: List.replicate 31 0) = 1
    ∧ LineInfo.nameOpt
        ⟨65 :: List.replicate 31 0, 65 :: List.replicate 31 0, 0, 0,
         ⟨none, none, none⟩⟩ = none := by
  decide

/-- C4 (code evaluated at the failing input): encoding the Line Info
record with name `"A"` and consumer `"B"` and decoding it back yields a
record whose consumer equals the *name* field `"A"` — `from_v2` reads
`info.name` for the consumer — so the round trip does not restore the
consumer field. -/
theorem fromV2_intoV2_loses_consumer :
    LineInfo.fromV2 (LineInfo.intoV2
        ⟨65 :: List.replicate 31 0, 66 :: List.replicate 31 0, 7, 0,
         ⟨none, none, none⟩⟩)
      = some ⟨65 :: List.replicate 31 0, 65 :: List.replicate 31 0, 7, 0,
              ⟨none, none, none⟩⟩
    ∧ (65 :: List.replicate 31 0) ≠ (66 :: List.replicate 31 0) := by
  decide

end Gpio
